import Mathlib

/-!
Verification of the core ray tracer in `ray.py` (classes Sphere, Triangle,
Camera, PointLight, AmbientLight, Scene and the function `shade`).

Modelling conventions:
* Python floats are modelled by the real numbers `ℝ`.
* The extended value `np.inf`, which appears as a ray's default `end`
  and as the `t` of the `no_hit` sentinel, is modelled by `EReal`
  (so that finite `t` values coerce and compare against `⊤`).
* 3-component numpy vectors are a structure `Vec3` with elementwise
  `+`, `-`, Hadamard `*`, and scalar `•`.
* The `no_hit` sentinel (a module-level `Hit(np.inf)`) is modelled as the
  `Hit` with `t = ⊤` and zero/default payload fields; every hit produced
  by a surface has a finite (coerced real) `t`, so structural equality
  with `noHit` coincides with the identity comparison `!= no_hit`
  performed in the Python code.
-/

set_option maxHeartbeats 1000000

/-- A 3-component vector of reals, modelling a numpy array of shape (3,). -/
@[ext]
structure Vec3 where
  x : ℝ
  y : ℝ
  z : ℝ


namespace Vec3

instance : Zero Vec3 := ⟨⟨0, 0, 0⟩⟩
instance : Add Vec3 := ⟨fun a b => ⟨a.x + b.x, a.y + b.y, a.z + b.z⟩⟩
instance : Sub Vec3 := ⟨fun a b => ⟨a.x - b.x, a.y - b.y, a.z - b.z⟩⟩
instance : Neg Vec3 := ⟨fun a => ⟨-a.x, -a.y, -a.z⟩⟩
instance : Mul Vec3 := ⟨fun a b => ⟨a.x * b.x, a.y * b.y, a.z * b.z⟩⟩
instance : SMul ℝ Vec3 := ⟨fun r a => ⟨r * a.x, r * a.y, r * a.z⟩⟩

@[simp] theorem zero_x : (0 : Vec3).x = 0 := rfl
@[simp] theorem zero_y : (0 : Vec3).y = 0 := rfl
@[simp] theorem zero_z : (0 : Vec3).z = 0 := rfl
@[simp] theorem add_x (a b : Vec3) : (a + b).x = a.x + b.x := rfl
@[simp] theorem add_y (a b : Vec3) : (a + b).y = a.y + b.y := rfl
@[simp] theorem add_z (a b : Vec3) : (a + b).z = a.z + b.z := rfl
@[simp] theorem sub_x (a b : Vec3) : (a - b).x = a.x - b.x := rfl
@[simp] theorem sub_y (a b : Vec3) : (a - b).y = a.y - b.y := rfl
@[simp] theorem sub_z (a b : Vec3) : (a - b).z = a.z - b.z := rfl
@[simp] theorem neg_x (a : Vec3) : (-a).x = -a.x := rfl
@[simp] theorem neg_y (a : Vec3) : (-a).y = -a.y := rfl
@[simp] theorem neg_z (a : Vec3) : (-a).z = -a.z := rfl
@[simp] theorem mul_x (a b : Vec3) : (a * b).x = a.x * b.x := rfl
@[simp] theorem mul_y (a b : Vec3) : (a * b).y = a.y * b.y := rfl
@[simp] theorem mul_z (a b : Vec3) : (a * b).z = a.z * b.z := rfl
@[simp] theorem smul_x (r : ℝ) (a : Vec3) : (r • a).x = r * a.x := rfl
@[simp] theorem smul_y (r : ℝ) (a : Vec3) : (r • a).y = r * a.y := rfl
@[simp] theorem smul_z (r : ℝ) (a : Vec3) : (r • a).z = r * a.z := rfl
@[simp] theorem mk_x (a b c : ℝ) : (Vec3.mk a b c).x = a := rfl
@[simp] theorem mk_y (a b c : ℝ) : (Vec3.mk a b c).y = b := rfl
@[simp] theorem mk_z (a b c : ℝ) : (Vec3.mk a b c).z = c := rfl

/-- Dot product of two 3-vectors (numpy `np.dot` on shape-(3,) arrays). -/
def dot (a b : Vec3) : ℝ := a.x * b.x + a.y * b.y + a.z * b.z

/-- Cross product of two 3-vectors (numpy `np.cross`). -/
def cross (a b : Vec3) : Vec3 :=
  ⟨a.y * b.z - a.z * b.y, a.z * b.x - a.x * b.z, a.x * b.y - a.y * b.x⟩

/-- Euclidean norm (numpy `np.linalg.norm` on a shape-(3,) array). -/
noncomputable def norm (a : Vec3) : ℝ := Real.sqrt (dot a a)

/-- Modelled from the spec: the external vector-utility `normalize`
(from `utils`, outside the core source), the unit vector `v / ‖v‖`. -/
noncomputable def normalize (a : Vec3) : Vec3 := (1 / norm a) • a

end Vec3

open Vec3

/-- A ray, `ray.py` class `Ray`: origin, direction (not necessarily unit),
and the valid parametric interval `[start, end]`.  The Python field `end`
(default `np.inf`) is named `rayEnd` because `end` is a Lean keyword; it
lives in `EReal` so that the default `+∞` is representable exactly. -/
@[ext]
structure Ray where
  origin : Vec3
  direction : Vec3
  start : ℝ
  rayEnd : EReal


/-- A material, `ray.py` class `Material` (diffuse, specular, exponent,
mirror, ambient coefficients).  The color-or-scalar coefficients are
modelled as `Vec3` colors. -/
structure Material where
  k_d : Vec3
  k_s : Vec3
  p : ℝ
  k_m : Vec3
  k_a : Vec3


/-- An intersection record, `ray.py` class `Hit`.  For the `no_hit`
sentinel the payload fields hold default values (`0` vectors and the
zero material); every hit constructed by a surface has a finite `t`. -/
structure Hit where
  t : EReal
  point : Vec3
  normal : Vec3
  material : Material


/-- The sentinel `no_hit = Hit(np.inf)` of `ray.py`. -/
def noHit : Hit := ⟨⊤, 0, 0, ⟨0, 0, 0, 0, 0⟩⟩

@[simp] theorem noHit_t : noHit.t = ⊤ := rfl

/-- A sphere, `ray.py` class `Sphere`. -/
structure Sphere where
  center : Vec3
  radius : ℝ
  material : Material


namespace Sphere

/-- Local `B = 2*np.dot(D, E-C)` of `Sphere.intersect`. -/
def B (s : Sphere) (ray : Ray) : ℝ :=
  2 * dot ray.direction (ray.origin - s.center)

/-- Local `A = np.dot(D, D)` of `Sphere.intersect`. -/
def A (_s : Sphere) (ray : Ray) : ℝ :=
  dot ray.direction ray.direction

/-- Local `C` coefficient `np.dot(E-C, E-C) - R**2` of `Sphere.intersect`
(the constant term of the quadratic). -/
def Cq (s : Sphere) (ray : Ray) : ℝ :=
  dot (ray.origin - s.center) (ray.origin - s.center) - s.radius ^ 2

/-- Local `discriminant = B**2 - 4*A*(np.dot(E-C,E-C)-R**2)`. -/
def discr (s : Sphere) (ray : Ray) : ℝ :=
  B s ray ^ 2 - 4 * A s ray * Cq s ray

/-- Local root `t0 = (-1*B - np.sqrt(discriminant)) / (2*A)`. -/
noncomputable def t0 (s : Sphere) (ray : Ray) : ℝ :=
  (-1 * B s ray - Real.sqrt (discr s ray)) / (2 * A s ray)

/-- Local root `t1 = (-1*B + np.sqrt(discriminant)) / (2*A)`. -/
noncomputable def t1 (s : Sphere) (ray : Ray) : ℝ :=
  (-1 * B s ray + Real.sqrt (discr s ray)) / (2 * A s ray)

/-- The hit built at the end of `Sphere.intersect`:
`P = E + t*D`, `unit_normal = (P - C) / R`, `Hit(t, P, unit_normal, material)`. -/
noncomputable def mkHit (s : Sphere) (ray : Ray) (t : ℝ) : Hit :=
  ⟨(t : EReal), ray.origin + t • ray.direction,
    (1 / s.radius) • (ray.origin + t • ray.direction - s.center), s.material⟩

/-- Embedding of `Sphere.intersect` from `ray.py`. -/
noncomputable def intersect (s : Sphere) (ray : Ray) : Hit :=
  if discr s ray < 0 then noHit
  else if t0 s ray ≥ ray.start ∧ ((t0 s ray : EReal) ≤ ray.rayEnd) ∧ t0 s ray ≤ t1 s ray then
    mkHit s ray (t0 s ray)
  else if t1 s ray ≥ ray.start ∧ ((t1 s ray : EReal) ≤ ray.rayEnd) then
    mkHit s ray (t1 s ray)
  else noHit

end Sphere

/-- A triangle, `ray.py` class `Triangle`.  The Python field `vs` is an
array of 3 vertices; its entries `vs[0]`, `vs[1]`, `vs[2]` are the fields
`v0`, `v1`, `v2`. -/
structure Triangle where
  v0 : Vec3
  v1 : Vec3
  v2 : Vec3
  material : Material

namespace Triangle

/-- Local `a = vs[0][0] - vs[1][0]` of `Triangle.intersect`. -/
def a (tri : Triangle) : ℝ := tri.v0.x - tri.v1.x

/-- Local `b = vs[0][1] - vs[1][1]` of `Triangle.intersect`. -/
def b (tri : Triangle) : ℝ := tri.v0.y - tri.v1.y

/-- Local `c = vs[0][2] - vs[1][2]` of `Triangle.intersect`. -/
def c (tri : Triangle) : ℝ := tri.v0.z - tri.v1.z

/-- Local `d = vs[0][0] - vs[2][0]` of `Triangle.intersect`. -/
def d (tri : Triangle) : ℝ := tri.v0.x - tri.v2.x

/-- Local `e = vs[0][1] - vs[2][1]` of `Triangle.intersect`. -/
def e (tri : Triangle) : ℝ := tri.v0.y - tri.v2.y

/-- Local `f = vs[0][2] - vs[2][2]` of `Triangle.intersect`. -/
def f (tri : Triangle) : ℝ := tri.v0.z - tri.v2.z

/-- Local `g = ray_dir[0]` of `Triangle.intersect`. -/
def g (ray : Ray) : ℝ := ray.direction.x

/-- Local `h = ray_dir[1]` of `Triangle.intersect`. -/
def h (ray : Ray) : ℝ := ray.direction.y

/-- Local `i = ray_dir[2]` of `Triangle.intersect`. -/
def i (ray : Ray) : ℝ := ray.direction.z

/-- Local `j = vs[0][0] - ray_orig[0]` of `Triangle.intersect`. -/
def j (tri : Triangle) (ray : Ray) : ℝ := tri.v0.x - ray.origin.x

/-- Local `k = vs[0][1] - ray_orig[1]` of `Triangle.intersect`. -/
def k (tri : Triangle) (ray : Ray) : ℝ := tri.v0.y - ray.origin.y

/-- Local `l = vs[0][2] - ray_orig[2]` of `Triangle.intersect`. -/
def l (tri : Triangle) (ray : Ray) : ℝ := tri.v0.z - ray.origin.z

/-- Local determinant `M = a*(e*i - h*f) + b*(g*f - d*i) + c*(d*h - e*g)`
of `Triangle.intersect`, computed before any guard. -/
def M (tri : Triangle) (ray : Ray) : ℝ :=
  a tri * (e tri * i ray - h ray * f tri) + b tri * (g ray * f tri - d tri * i ray)
    + c tri * (d tri * h ray - e tri * g ray)

/-- Numerator of the local `t` of `Triangle.intersect` (the whole
expression `-(f*(a*k - j*b) + e*(j*c - a*l) + d*(b*l - k*c))`). -/
def tNum (tri : Triangle) (ray : Ray) : ℝ :=
  -(f tri * (a tri * k tri ray - j tri ray * b tri)
    + e tri * (j tri ray * c tri - a tri * l tri ray)
    + d tri * (b tri * l tri ray - k tri ray * c tri))

/-- Numerator of the local `gamma` of `Triangle.intersect`. -/
def gammaNum (tri : Triangle) (ray : Ray) : ℝ :=
  i ray * (a tri * k tri ray - j tri ray * b tri)
    + h ray * (j tri ray * c tri - a tri * l tri ray)
    + g ray * (b tri * l tri ray - k tri ray * c tri)

/-- Numerator of the local `beta` of `Triangle.intersect`. -/
def betaNum (tri : Triangle) (ray : Ray) : ℝ :=
  j tri ray * (e tri * i ray - h ray * f tri)
    + k tri ray * (g ray * f tri - d tri * i ray)
    + l tri ray * (d tri * h ray - e tri * g ray)

/-- Local `t` of `Triangle.intersect`. -/
noncomputable def tval (tri : Triangle) (ray : Ray) : ℝ := tNum tri ray / M tri ray

/-- Local `gamma` of `Triangle.intersect`. -/
noncomputable def gamma (tri : Triangle) (ray : Ray) : ℝ := gammaNum tri ray / M tri ray

/-- Local `beta` of `Triangle.intersect`. -/
noncomputable def beta (tri : Triangle) (ray : Ray) : ℝ := betaNum tri ray / M tri ray

/-- The face normal `normalize(np.cross(vs[0] - vs[2], vs[1] - vs[2]))`
of `Triangle.intersect`. -/
noncomputable def faceNormal (tri : Triangle) : Vec3 :=
  normalize (cross (tri.v0 - tri.v2) (tri.v1 - tri.v2))

/-- Embedding of `Triangle.intersect` from `ray.py`. -/
noncomputable def intersect (tri : Triangle) (ray : Ray) : Hit :=
  if tval tri ray < ray.start ∨ ((tval tri ray : EReal) > ray.rayEnd) then noHit
  else if gamma tri ray < 0 ∨ gamma tri ray > 1 then noHit
  else if beta tri ray < 0 ∨ beta tri ray > 1 - gamma tri ray then noHit
  else
    ⟨(tval tri ray : EReal), ray.origin + tval tri ray • ray.direction,
      faceNormal tri, tri.material⟩

/-- Division by the determinant `M`, with the division-by-zero error made
explicit: this is the checked counterpart of the three `/ M` sites of
`Triangle.intersect`. -/
noncomputable def divM (tri : Triangle) (ray : Ray) (x : ℝ) : Except String ℝ :=
  if M tri ray = 0 then Except.error "division by zero" else Except.ok (x / M tri ray)

/-- Embedding of `Triangle.intersect` in which every division (all three
are by `M`) is checked: the `Except.error` branch is the
division-by-zero error of the total embedding. -/
noncomputable def intersectE (tri : Triangle) (ray : Ray) : Except String Hit :=
  match divM tri ray (tNum tri ray) with
  | Except.error msg => Except.error msg
  | Except.ok t =>
    if t < ray.start ∨ ((t : EReal) > ray.rayEnd) then Except.ok noHit
    else
      match divM tri ray (gammaNum tri ray) with
      | Except.error msg => Except.error msg
      | Except.ok gam =>
        if gam < 0 ∨ gam > 1 then Except.ok noHit
        else
          match divM tri ray (betaNum tri ray) with
          | Except.error msg => Except.error msg
          | Except.ok bet =>
            if bet < 0 ∨ bet > 1 - gam then Except.ok noHit
            else Except.ok
              ⟨(t : EReal), ray.origin + t • ray.direction, faceNormal tri, tri.material⟩

end Triangle

/-- A camera, `ray.py` class `Camera`: `eye`, `target`, `up`, the full
vertical field of view in degrees, and the aspect ratio. -/
structure Camera where
  eye : Vec3
  target : Vec3
  up : Vec3
  vfovDeg : ℝ
  aspect : ℝ

namespace Camera

/-- The stored `self.vfov = np.radians(vfov)` of the `Camera` constructor. -/
noncomputable def vfov (c : Camera) : ℝ := c.vfovDeg * (Real.pi / 180)

/-- The cached forward axis `self.w = normalize(eye - target)`. -/
noncomputable def w (c : Camera) : Vec3 := normalize (c.eye - c.target)

/-- The cached right axis `self.u = normalize(np.cross(up, self.w))`. -/
noncomputable def u (c : Camera) : Vec3 := normalize (cross c.up (w c))

/-- The cached camera-up axis `self.v = np.cross(self.w, self.u)`. -/
noncomputable def v (c : Camera) : Vec3 := cross (w c) (u c)

/-- Embedding of `Camera.generate_ray` from `ray.py`; the image point is
`(i, j)`. -/
noncomputable def generateRay (c : Camera) (iPt jPt : ℝ) : Ray :=
  let dist_vector := c.target - c.eye
  let proj_dist := norm dist_vector
  let height := 2 * proj_dist * Real.tan (vfov c / 2)
  let width := c.aspect * height
  let left := (-1) * width / 2
  let bottom := (-1) * height / 2
  let uo := iPt * width + left
  let vo := jPt * height + bottom
  ⟨c.eye, ((-1) * proj_dist) • w c + uo • u c + vo • v c, 0, ⊤⟩

end Camera

/-- The tagged union of the two surface kinds a `Scene` may contain
(the Python list `surfs : [Sphere, Triangle]`). -/
inductive Surface where
  | sphere (s : Sphere)
  | tri (t : Triangle)

/-- Dispatch of the shared `intersect(ray) -> Hit` capability. -/
noncomputable def Surface.intersect : Surface → Ray → Hit
  | Surface.sphere s, ray => s.intersect ray
  | Surface.tri t, ray => t.intersect ray

/-- A scene, `ray.py` class `Scene`: the list of surfaces and the
background color. -/
structure Scene where
  surfs : List Surface
  bg_color : Vec3

/-- One step of the loop body of `Scene.intersect`: the loop keeps the
pair `(min_t, i)`, but `min_t` always equals `i.t` (both start at
`np.inf` and are updated together), so the state is the single best hit. -/
noncomputable def sceneStep (ray : Ray) (best : Hit) (s : Surface) : Hit :=
  if (s.intersect ray).t < best.t then s.intersect ray else best

/-- Embedding of `Scene.intersect` from `ray.py`: linear scan keeping the
first hit of strictly smallest `t`, starting from `no_hit`. -/
noncomputable def Scene.intersect (sc : Scene) (ray : Ray) : Hit :=
  sc.surfs.foldl (sceneStep ray) noHit

/-- A point light, `ray.py` class `PointLight`. -/
structure PointLight where
  position : Vec3
  intensity : Vec3

namespace PointLight

/-- The local `epsilon = 0.000001` of `PointLight.illuminate`. -/
def eps : ℝ := 0.000001

/-- The shadow ray `Ray(hit.point + l*epsilon, l, epsilon, 1)` built by
`PointLight.illuminate`, where `l = position - hit.point`. -/
noncomputable def shadowRay (light : PointLight) (hit : Hit) : Ray :=
  ⟨hit.point + eps • (light.position - hit.point), light.position - hit.point, eps, (1 : EReal)⟩

/-- The second ray `shade_ray = Ray(hit.point, light_ray, epsilon)` built
by `PointLight.illuminate`, where `light_ray = normalize(position -
hit.point)` and the interval end defaults to `np.inf`. -/
noncomputable def shadeRay (light : PointLight) (hit : Hit) : Ray :=
  ⟨hit.point, normalize (light.position - hit.point), eps, ⊤⟩

/-- Embedding of `PointLight.illuminate` from `ray.py`.  The Python
`**` between floats is modelled by `Real.rpow`. -/
noncomputable def illuminate (light : PointLight) (ray : Ray) (hit : Hit) (scene : Scene) :
    Vec3 :=
  if (scene.intersect (shadowRay light hit)).t > 1 then
    let normal := hit.normal
    let dist_to_source := norm (hit.point - light.position)
    let v := (-1 : ℝ) • normalize ray.direction
    let light_ray := normalize (light.position - hit.point)
    if (scene.intersect (shadeRay light hit)).t = ⊤ then
      let hv := (1 / norm (v + light_ray)) • (v + light_ray)
      ((max 0 (dot normal light_ray) / dist_to_source ^ 2) •
        (hit.material.k_d + Real.rpow (dot normal hv) hit.material.p • hit.material.k_s))
        * light.intensity
    else 0
  else 0

end PointLight

/-- An ambient light, `ray.py` class `AmbientLight`. -/
structure AmbientLight where
  intensity : Vec3

/-- Embedding of `AmbientLight.illuminate` from `ray.py`:
`hit.material.k_a * intensity`, unconditionally. -/
def AmbientLight.illuminate (light : AmbientLight) (_ray : Ray) (hit : Hit)
    (_scene : Scene) : Vec3 :=
  hit.material.k_a * light.intensity

/-- The tagged union of the two light kinds. -/
inductive Light where
  | point (pl : PointLight)
  | ambient (al : AmbientLight)

/-- Dispatch of the shared `illuminate(ray, hit, scene) -> color` capability. -/
noncomputable def Light.illuminate : Light → Ray → Hit → Scene → Vec3
  | Light.point pl, ray, hit, scene => pl.illuminate ray hit scene
  | Light.ambient al, ray, hit, scene => al.illuminate ray hit scene

/-- The module constant `MAX_DEPTH = 4` of `ray.py`. -/
def MAX_DEPTH : ℕ := 4

/-- The mirror ray built by `shade`:
`m_dir = r_dir - 2*np.dot(r_dir, normal)*normal`,
`m_ray = Ray(hit.point, m_dir, 0.0000001, np.inf)`. -/
noncomputable def mirrorRay (ray : Ray) (hit : Hit) : Ray :=
  ⟨hit.point, ray.direction - (2 * dot ray.direction hit.normal) • hit.normal,
    0.0000001, ⊤⟩

/-- The light loop of `shade`: starting from the accumulated output,
add `light.illuminate(ray, hit, scene)` for each light in order. -/
noncomputable def sumIllum (lights : List Light) (ray : Ray) (hit : Hit) (scene : Scene)
    (init : Vec3) : Vec3 :=
  lights.foldl (fun acc light => acc + light.illuminate ray hit scene) init

open Classical in
/-- Embedding of the recursive function `shade` from `ray.py`.  The
Python identity comparison `m_hit != no_hit` is modelled by structural
inequality with `noHit` (they agree on every value `Scene.intersect`
returns, because every surface hit carries a finite `t`). -/
noncomputable def shade (scene : Scene) (lights : List Light) (ray : Ray) (hit : Hit)
    (depth : ℕ) : Vec3 :=
  if hit.t < ⊤ then
    let refl : Vec3 :=
      if hd : depth < MAX_DEPTH then
        let mRay := mirrorRay ray hit
        let mHit := scene.intersect mRay
        if mHit ≠ noHit then hit.material.k_m * shade scene lights mRay mHit (depth + 1)
        else hit.material.k_m * scene.bg_color
      else 0
    sumIllum lights ray hit scene refl
  else scene.bg_color
termination_by MAX_DEPTH - depth
decreasing_by omega

open Classical in
/-- The fuel-indexed variant of `shade`: recursion is possible only while
fuel remains, and an exhausted-fuel reflection step contributes zero.
`shadeFuel` with fuel `MAX_DEPTH - depth` coincides with `shade`, which
bounds the recursion depth of `shade`. -/
noncomputable def shadeFuel (scene : Scene) (lights : List Light) :
    ℕ → Ray → Hit → ℕ → Vec3
  | fuel, ray, hit, depth =>
    if hit.t < ⊤ then
      let refl : Vec3 :=
        if depth < MAX_DEPTH then
          match fuel with
          | 0 => 0
          | fuel' + 1 =>
            let mRay := mirrorRay ray hit
            let mHit := scene.intersect mRay
            if mHit ≠ noHit then
              hit.material.k_m * shadeFuel scene lights fuel' mRay mHit (depth + 1)
            else hit.material.k_m * scene.bg_color
        else 0
      sumIllum lights ray hit scene refl
    else scene.bg_color

/-! Helper algebra for the sphere quadratic. -/

theorem Vec3.dot_self_pos {a : Vec3} (h : a ≠ 0) : 0 < dot a a := by
  have h2 : a.x ≠ 0 ∨ a.y ≠ 0 ∨ a.z ≠ 0 := by
    by_contra hc
    push_neg at hc
    exact h (Vec3.ext hc.1 hc.2.1 hc.2.2)
  unfold dot
  rcases h2 with hx | hy | hz
  · nlinarith [mul_self_pos.mpr hx, mul_self_nonneg a.y, mul_self_nonneg a.z]
  · nlinarith [mul_self_pos.mpr hy, mul_self_nonneg a.x, mul_self_nonneg a.z]
  · nlinarith [mul_self_pos.mpr hz, mul_self_nonneg a.x, mul_self_nonneg a.y]

theorem Sphere.t0_le_t1 (s : Sphere) (ray : Ray) (hA : 0 < Sphere.A s ray) :
    Sphere.t0 s ray ≤ Sphere.t1 s ray := by
  unfold Sphere.t0 Sphere.t1
  have hs : 0 ≤ Real.sqrt (Sphere.discr s ray) := Real.sqrt_nonneg _
  have h2A : (0 : ℝ) < 2 * Sphere.A s ray := by linarith
  exact (div_le_div_right h2A).mpr (by linarith)

theorem Sphere.root_quadratic (s : Sphere) (ray : Ray) (hA : Sphere.A s ray ≠ 0)
    (hdisc : 0 ≤ Sphere.discr s ray) (t : ℝ)
    (ht : t = Sphere.t0 s ray ∨ t = Sphere.t1 s ray) :
    Sphere.A s ray * t ^ 2 + Sphere.B s ray * t + Sphere.Cq s ray = 0 := by
  have hs : Real.sqrt (Sphere.discr s ray) ^ 2 = Sphere.discr s ray :=
    Real.sq_sqrt hdisc
  have hd : Sphere.discr s ray = Sphere.B s ray ^ 2 - 4 * Sphere.A s ray * Sphere.Cq s ray :=
    rfl
  rcases ht with h | h <;> subst h
  · unfold Sphere.t0
    field_simp
    nlinarith [hs, hd]
  · unfold Sphere.t1
    field_simp
    nlinarith [hs, hd]

theorem Sphere.point_on_sphere (s : Sphere) (ray : Ray) (t : ℝ)
    (hroot : Sphere.A s ray * t ^ 2 + Sphere.B s ray * t + Sphere.Cq s ray = 0) :
    dot (ray.origin + t • ray.direction - s.center)
      (ray.origin + t • ray.direction - s.center) = s.radius ^ 2 := by
  have hA : Sphere.A s ray = dot ray.direction ray.direction := rfl
  have hB : Sphere.B s ray = 2 * dot ray.direction (ray.origin - s.center) := rfl
  have hC : Sphere.Cq s ray
      = dot (ray.origin - s.center) (ray.origin - s.center) - s.radius ^ 2 := rfl
  rw [hA, hB, hC] at hroot
  simp only [dot] at hroot ⊢
  simp only [Vec3.sub_x, Vec3.sub_y, Vec3.sub_z, Vec3.add_x, Vec3.add_y, Vec3.add_z,
    Vec3.smul_x, Vec3.smul_y, Vec3.smul_z] at hroot ⊢
  nlinarith [hroot]

open Classical in
/-- C3: for every ray with nonzero direction and sphere with positive
radius, `Sphere.intersect` returns `no_hit` when the discriminant of
`A t^2 + B t + C = 0` is negative; otherwise the roots satisfy
`t0 ≤ t1`, and it selects the smallest root lying in
`[ray.start, ray.end]` (taking `t1` when `t0` is outside but `t1`
inside, `no_hit` when neither is), the returned hit having point
`P = E + t*D` and outward unit normal `(P - Ctr)/R` (each selected `t`
is a genuine root, so this normal has unit length). -/
theorem sphere_intersect_correct (s : Sphere) (ray : Ray)
    (hD : ray.direction ≠ 0) (hR : 0 < s.radius) :
    (Sphere.discr s ray < 0 → s.intersect ray = noHit) ∧
    (0 ≤ Sphere.discr s ray →
      Sphere.t0 s ray ≤ Sphere.t1 s ray ∧
      s.intersect ray =
        (if Sphere.t0 s ray ≥ ray.start ∧ ((Sphere.t0 s ray : EReal) ≤ ray.rayEnd) then
          Sphere.mkHit s ray (Sphere.t0 s ray)
        else if Sphere.t1 s ray ≥ ray.start ∧ ((Sphere.t1 s ray : EReal) ≤ ray.rayEnd) then
          Sphere.mkHit s ray (Sphere.t1 s ray)
        else noHit) ∧
      (∀ t : ℝ, t = Sphere.t0 s ray ∨ t = Sphere.t1 s ray →
        Sphere.A s ray * t ^ 2 + Sphere.B s ray * t + Sphere.Cq s ray = 0 ∧
        dot (Sphere.mkHit s ray t).normal (Sphere.mkHit s ray t).normal = 1)) := by
  have hA : 0 < Sphere.A s ray := Vec3.dot_self_pos hD
  constructor
  · intro hneg
    unfold Sphere.intersect
    rw [if_pos hneg]
  · intro hpos
    have ht01 : Sphere.t0 s ray ≤ Sphere.t1 s ray := Sphere.t0_le_t1 s ray hA
    refine ⟨ht01, ?_, ?_⟩
    · unfold Sphere.intersect
      rw [if_neg (not_lt.mpr hpos)]
      simp only [ht01, and_true]
    · intro t ht
      have hroot := Sphere.root_quadratic s ray (ne_of_gt hA) hpos t ht
      refine ⟨hroot, ?_⟩
      have hpt := Sphere.point_on_sphere s ray t hroot
      show dot ((1 / s.radius) • _) ((1 / s.radius) • _) = 1
      simp only [dot, Vec3.smul_x, Vec3.smul_y, Vec3.smul_z, Vec3.add_x, Vec3.add_y,
        Vec3.add_z, Vec3.sub_x, Vec3.sub_y, Vec3.sub_z] at hpt ⊢
      have hRn : s.radius ≠ 0 := ne_of_gt hR
      field_simp
      nlinarith [hpt]

/-- Witness for `sphere_intersect_correct` at a concrete sphere and ray:
origin `(0,0,0)`, direction `(0,0,1)`, sphere centered `(0,0,3)` with
radius `1`; the discriminant is `4 ≥ 0`. -/
theorem sphere_intersect_correct_witness :
    Sphere.t0 ⟨⟨0, 0, 3⟩, 1, ⟨0, 0, 0, 0, 0⟩⟩ ⟨⟨0, 0, 0⟩, ⟨0, 0, 1⟩, 0, ⊤⟩ ≤
      Sphere.t1 ⟨⟨0, 0, 3⟩, 1, ⟨0, 0, 0, 0, 0⟩⟩ ⟨⟨0, 0, 0⟩, ⟨0, 0, 1⟩, 0, ⊤⟩ :=
  ((sphere_intersect_correct ⟨⟨0, 0, 3⟩, 1, ⟨0, 0, 0, 0, 0⟩⟩ ⟨⟨0, 0, 0⟩, ⟨0, 0, 1⟩, 0, ⊤⟩
    (by simp [Vec3.ext_iff])
    (by norm_num)).2
    (by norm_num [Sphere.discr, Sphere.A, Sphere.B, Sphere.Cq, dot])).1

/-! Characterization of the linear scan of `Scene.intersect`. -/

open Classical in
theorem sceneFold_spec (ray : Ray) (l : List Surface) (bst : Hit) :
    (l.foldl (sceneStep ray) bst = bst ∧ ∀ s ∈ l, bst.t ≤ (s.intersect ray).t)
    ∨ (∃ l1 s0 l2, l = l1 ++ s0 :: l2 ∧
        l.foldl (sceneStep ray) bst = s0.intersect ray ∧
        (l.foldl (sceneStep ray) bst).t < bst.t ∧
        (∀ s ∈ l1, (l.foldl (sceneStep ray) bst).t < (s.intersect ray).t) ∧
        (∀ s ∈ l, (l.foldl (sceneStep ray) bst).t ≤ (s.intersect ray).t)) := by
  induction l generalizing bst with
  | nil =>
    left
    exact ⟨rfl, by simp⟩
  | cons s tl ih =>
    simp only [List.foldl_cons]
    by_cases hc : (s.intersect ray).t < bst.t
    · have hstep : sceneStep ray bst s = s.intersect ray := by
        unfold sceneStep; rw [if_pos hc]
      rw [hstep]
      rcases ih (s.intersect ray) with ⟨heq, hall⟩ | ⟨l1, s0, l2, hsplit, heq, hlt, hpre, hall⟩
      · right
        refine ⟨[], s, tl, by simp, heq, ?_, by simp, ?_⟩
        · rw [heq]; exact hc
        · intro s' hs'
          rw [heq]
          rcases List.mem_cons.mp hs' with h | h
          · subst h; exact le_refl _
          · exact hall s' h
      · right
        refine ⟨s :: l1, s0, l2, by rw [hsplit, List.cons_append], heq, lt_trans hlt hc, ?_, ?_⟩
        · intro s' hs'
          rcases List.mem_cons.mp hs' with h | h
          · subst h; exact hlt
          · exact hpre s' h
        · intro s' hs'
          rcases List.mem_cons.mp hs' with h | h
          · subst h; exact le_of_lt hlt
          · exact hall s' h
    · have hstep : sceneStep ray bst s = bst := by
        unfold sceneStep; rw [if_neg hc]
      rw [hstep]
      rcases ih bst with ⟨heq, hall⟩ | ⟨l1, s0, l2, hsplit, heq, hlt, hpre, hall⟩
      · left
        refine ⟨heq, ?_⟩
        intro s' hs'
        rcases List.mem_cons.mp hs' with h | h
        · subst h; exact not_lt.mp hc
        · exact hall s' h
      · right
        refine ⟨s :: l1, s0, l2, by rw [hsplit, List.cons_append], heq, hlt, ?_, ?_⟩
        · intro s' hs'
          rcases List.mem_cons.mp hs' with h | h
          · subst h; exact lt_of_lt_of_le hlt (not_lt.mp hc)
          · exact hpre s' h
        · intro s' hs'
          rcases List.mem_cons.mp hs' with h | h
          · subst h; exact le_of_lt (lt_of_lt_of_le hlt (not_lt.mp hc))
          · exact hall s' h

theorem scene_intersect_mem (sc : Scene) (ray : Ray) :
    sc.intersect ray = noHit ∨
      ∃ s ∈ sc.surfs, sc.intersect ray = s.intersect ray := by
  rcases sceneFold_spec ray sc.surfs noHit with ⟨heq, _⟩ | ⟨l1, s0, l2, hsplit, heq, _, _, _⟩
  · left; exact heq
  · right
    exact ⟨s0, by simp [hsplit], heq⟩

/-! Interval invariant for each intersect operation. -/

theorem sphere_interval (s : Sphere) (ray : Ray) :
    s.intersect ray = noHit ∨
      ((ray.start : EReal) ≤ (s.intersect ray).t ∧ (s.intersect ray).t ≤ ray.rayEnd) := by
  unfold Sphere.intersect
  split_ifs with h1 h2 h3
  · left; rfl
  · right
    exact ⟨EReal.coe_le_coe_iff.mpr h2.1, h2.2.1⟩
  · right
    exact ⟨EReal.coe_le_coe_iff.mpr h3.1, h3.2⟩
  · left; rfl

theorem triangle_interval (tri : Triangle) (ray : Ray) :
    tri.intersect ray = noHit ∨
      ((ray.start : EReal) ≤ (tri.intersect ray).t ∧ (tri.intersect ray).t ≤ ray.rayEnd) := by
  unfold Triangle.intersect
  split_ifs with h1 h2 h3
  · left; rfl
  · left; rfl
  · left; rfl
  · right
    push_neg at h1
    exact ⟨EReal.coe_le_coe_iff.mpr h1.1, h1.2⟩

theorem surface_interval (s : Surface) (ray : Ray) :
    s.intersect ray = noHit ∨
      ((ray.start : EReal) ≤ (s.intersect ray).t ∧ (s.intersect ray).t ≤ ray.rayEnd) := by
  cases s with
  | sphere s => exact sphere_interval s ray
  | tri t => exact triangle_interval t ray

/-- C9: the hit returned by `Sphere.intersect`, `Triangle.intersect` and
`Scene.intersect` is either the `no_hit` sentinel (`t = ⊤`) or satisfies
`ray.start ≤ t ≤ ray.end`. -/
theorem intersect_interval_invariant :
    (∀ (s : Sphere) (ray : Ray), s.intersect ray = noHit ∨
      ((ray.start : EReal) ≤ (s.intersect ray).t ∧ (s.intersect ray).t ≤ ray.rayEnd)) ∧
    (∀ (tri : Triangle) (ray : Ray), tri.intersect ray = noHit ∨
      ((ray.start : EReal) ≤ (tri.intersect ray).t ∧ (tri.intersect ray).t ≤ ray.rayEnd)) ∧
    (∀ (sc : Scene) (ray : Ray), sc.intersect ray = noHit ∨
      ((ray.start : EReal) ≤ (sc.intersect ray).t ∧ (sc.intersect ray).t ≤ ray.rayEnd)) := by
  refine ⟨sphere_interval, triangle_interval, ?_⟩
  intro sc ray
  rcases scene_intersect_mem sc ray with h | ⟨s, _, heq⟩
  · left; exact h
  · rw [heq]
    exact surface_interval s ray

/-- C4: for every ray and every list of surfaces, `Scene.intersect`
returns a hit of minimal `t` among all surfaces, the no-hit sentinel
exactly when every surface reports `t = ⊤`, and ties of equal `t` go to
the surface that appears first in the list (every surface strictly
before the winner has strictly larger `t`); moreover, when all the
intersection `t` values are distinct, permuting the surface list leaves
the result unchanged. -/
theorem scene_intersect_correct (ray : Ray) (surfs : List Surface) (bg : Vec3) :
    (∀ s ∈ surfs, (Scene.intersect ⟨surfs, bg⟩ ray).t ≤ (s.intersect ray).t) ∧
    (Scene.intersect ⟨surfs, bg⟩ ray = noHit ↔
      ∀ s ∈ surfs, (s.intersect ray).t = ⊤) ∧
    (Scene.intersect ⟨surfs, bg⟩ ray = noHit ∨
      ∃ l1 s0 l2, surfs = l1 ++ s0 :: l2 ∧
        Scene.intersect ⟨surfs, bg⟩ ray = s0.intersect ray ∧
        ∀ s ∈ l1, (Scene.intersect ⟨surfs, bg⟩ ray).t < (s.intersect ray).t) ∧
    (∀ surfs' : List Surface, surfs.Perm surfs' →
      (surfs.map (fun s => (s.intersect ray).t)).Nodup →
      Scene.intersect ⟨surfs', bg⟩ ray = Scene.intersect ⟨surfs, bg⟩ ray) := by
  show (∀ s ∈ surfs, (surfs.foldl (sceneStep ray) noHit).t ≤ (s.intersect ray).t) ∧ _
  rcases sceneFold_spec ray surfs noHit with ⟨heq, hall⟩ | hB
  · have htop : ∀ s ∈ surfs, (s.intersect ray).t = ⊤ := fun s hs =>
      top_le_iff.mp (hall s hs)
    refine ⟨?_, ?_, ?_, ?_⟩
    · intro s hs
      rw [heq, noHit_t, htop s hs]
    · exact ⟨fun _ => htop, fun _ => heq⟩
    · left; exact heq
    · intro surfs' hperm _hnd
      have htop' : ∀ s ∈ surfs', (s.intersect ray).t = ⊤ := fun s hs =>
        htop s (hperm.mem_iff.mpr hs)
      have heq' : surfs'.foldl (sceneStep ray) noHit = noHit := by
        rcases sceneFold_spec ray surfs' noHit with ⟨h, _⟩ |
          ⟨l1, s0, l2, hsplit, he, hlt, _, _⟩
        · exact h
        · exfalso
          have hs0 : s0 ∈ surfs' := by simp [hsplit]
          rw [he, htop' s0 hs0] at hlt
          exact lt_irrefl _ hlt
      show surfs'.foldl (sceneStep ray) noHit = surfs.foldl (sceneStep ray) noHit
      rw [heq, heq']
  · obtain ⟨l1, s0, l2, hsplit, heq, hlt, hpre, hall⟩ := hB
    have hs0 : s0 ∈ surfs := by simp [hsplit]
    have hndR : ¬ (surfs.foldl (sceneStep ray) noHit = noHit) := by
      intro h
      rw [h, noHit_t] at hlt
      exact lt_irrefl _ hlt
    refine ⟨hall, ?_, ?_, ?_⟩
    · constructor
      · intro h; exact absurd h hndR
      · intro h
        exfalso
        rw [heq, h s0 hs0] at hlt
        exact lt_irrefl _ hlt
    · right
      exact ⟨l1, s0, l2, hsplit, heq, hpre⟩
    · intro surfs' hperm hnd
      have hinj := List.inj_on_of_nodup_map hnd
      show surfs'.foldl (sceneStep ray) noHit = surfs.foldl (sceneStep ray) noHit
      rcases sceneFold_spec ray surfs' noHit with ⟨heq', hall'⟩ | hB'
      · exfalso
        have : (s0.intersect ray).t = ⊤ :=
          top_le_iff.mp (hall' s0 (hperm.mem_iff.mp hs0))
        rw [heq, this] at hlt
        exact lt_irrefl _ hlt
      · obtain ⟨l1', s0', l2', hsplit', heq', hlt', hpre', hall'⟩ := hB'
        have hs0' : s0' ∈ surfs' := by simp [hsplit']
        have hs0's : s0' ∈ surfs := hperm.mem_iff.mpr hs0'
        have h1 : (s0.intersect ray).t ≤ (s0'.intersect ray).t := by
          have := hall s0' hs0's
          rwa [heq] at this
        have h2 : (s0'.intersect ray).t ≤ (s0.intersect ray).t := by
          have := hall' s0 (hperm.mem_iff.mp hs0)
          rwa [heq'] at this
        have hts : (fun s => (s.intersect ray).t) s0 = (fun s => (s.intersect ray).t) s0' :=
          le_antisymm h1 h2
        have : s0 = s0' := hinj hs0 hs0's hts
        rw [heq, heq', this]

/-! Concrete instances used by witnesses and counterexamples. -/

/-- A simple diffuse white material used in concrete scenes. -/
def wMat : Material := ⟨⟨1, 1, 1⟩, ⟨0, 0, 0⟩, 20, ⟨0, 0, 0⟩, ⟨1, 1, 1⟩⟩

/-- A concrete ray along the positive z axis. -/
def wRay : Ray := ⟨⟨0, 0, 0⟩, ⟨0, 0, 1⟩, 0, ⊤⟩

/-- A unit sphere 5 units down the z axis. -/
def wSph1 : Sphere := ⟨⟨0, 0, 5⟩, 1, wMat⟩

/-- A unit sphere 10 units down the z axis. -/
def wSph2 : Sphere := ⟨⟨0, 0, 10⟩, 1, wMat⟩

theorem sqrt_four : Real.sqrt 4 = 2 := by
  rw [show (4 : ℝ) = 2 ^ 2 by norm_num]
  exact Real.sqrt_sq (by norm_num)

theorem wSph1_discr : Sphere.discr wSph1 wRay = 4 := by
  norm_num [Sphere.discr, Sphere.A, Sphere.B, Sphere.Cq, wSph1, wRay, dot]

theorem wSph1_t0 : Sphere.t0 wSph1 wRay = 4 := by
  unfold Sphere.t0
  rw [wSph1_discr, sqrt_four]
  norm_num [Sphere.A, Sphere.B, wSph1, wRay, dot]

theorem wSph1_t1 : Sphere.t1 wSph1 wRay = 6 := by
  unfold Sphere.t1
  rw [wSph1_discr, sqrt_four]
  norm_num [Sphere.A, Sphere.B, wSph1, wRay, dot]

theorem wSph1_eval :
    Sphere.intersect wSph1 wRay = ⟨((4 : ℝ) : EReal), ⟨0, 0, 4⟩, ⟨0, 0, -1⟩, wMat⟩ := by
  unfold Sphere.intersect
  rw [if_neg (by rw [wSph1_discr]; norm_num)]
  rw [if_pos (by rw [wSph1_t0, wSph1_t1]; refine ⟨?_, le_top, ?_⟩ <;> norm_num [wRay])]
  rw [wSph1_t0]
  unfold Sphere.mkHit
  congr 1
  · ext <;> norm_num [wRay]
  · ext <;> norm_num [wSph1, wRay]

theorem wSph2_discr : Sphere.discr wSph2 wRay = 4 := by
  norm_num [Sphere.discr, Sphere.A, Sphere.B, Sphere.Cq, wSph2, wRay, dot]

theorem wSph2_t0 : Sphere.t0 wSph2 wRay = 9 := by
  unfold Sphere.t0
  rw [wSph2_discr, sqrt_four]
  norm_num [Sphere.A, Sphere.B, wSph2, wRay, dot]

theorem wSph2_t1 : Sphere.t1 wSph2 wRay = 11 := by
  unfold Sphere.t1
  rw [wSph2_discr, sqrt_four]
  norm_num [Sphere.A, Sphere.B, wSph2, wRay, dot]

theorem wSph2_eval :
    Sphere.intersect wSph2 wRay = ⟨((9 : ℝ) : EReal), ⟨0, 0, 9⟩, ⟨0, 0, -1⟩, wMat⟩ := by
  unfold Sphere.intersect
  rw [if_neg (by rw [wSph2_discr]; norm_num)]
  rw [if_pos (by rw [wSph2_t0, wSph2_t1]; refine ⟨?_, le_top, ?_⟩ <;> norm_num [wRay])]
  rw [wSph2_t0]
  unfold Sphere.mkHit
  congr 1
  · ext <;> norm_num [wRay]
  · ext <;> norm_num [wSph2, wRay]

/-- Witness for `scene_intersect_correct`: a two-sphere scene along the
z axis whose intersection `t` values are `4` and `9`; swapping the list
order leaves `Scene.intersect` unchanged. -/
theorem scene_intersect_correct_witness :
    Scene.intersect ⟨[Surface.sphere wSph2, Surface.sphere wSph1], 0⟩ wRay =
      Scene.intersect ⟨[Surface.sphere wSph1, Surface.sphere wSph2], 0⟩ wRay :=
  (scene_intersect_correct wRay [Surface.sphere wSph1, Surface.sphere wSph2] 0).2.2.2
    [Surface.sphere wSph2, Surface.sphere wSph1]
    (List.Perm.swap (Surface.sphere wSph2) (Surface.sphere wSph1) [])
    (by
      simp only [List.map_cons, List.map_nil, Surface.intersect, wSph1_eval, wSph2_eval,
        List.nodup_cons, List.mem_cons, List.not_mem_nil, List.mem_singleton,
        List.nodup_nil, and_true, not_false_iff, or_false]
      norm_num)

open Classical in
/-- C5: when the determinant `M` of the Cramer system is nonzero (ray
not parallel to the plane of a non-degenerate triangle), the solved
`(t, beta, gamma)` satisfy `E + t*D = v0 + beta*(v1-v0) + gamma*(v2-v0)`;
`Triangle.intersect` returns `no_hit` exactly when `t` is outside
`[ray.start, ray.end]` or `gamma < 0` or `gamma > 1` or `beta < 0` or
`beta > 1 - gamma`, and otherwise returns the hit at `t` with the
constant face normal `normalize(cross(v0 - v2, v1 - v2))`. -/
theorem triangle_intersect_correct (tri : Triangle) (ray : Ray)
    (hM : Triangle.M tri ray ≠ 0) :
    (ray.origin + Triangle.tval tri ray • ray.direction =
      tri.v0 + Triangle.beta tri ray • (tri.v1 - tri.v0)
        + Triangle.gamma tri ray • (tri.v2 - tri.v0)) ∧
    (tri.intersect ray = noHit ↔
      (Triangle.tval tri ray < ray.start ∨ ((Triangle.tval tri ray : EReal) > ray.rayEnd) ∨
       Triangle.gamma tri ray < 0 ∨ Triangle.gamma tri ray > 1 ∨
       Triangle.beta tri ray < 0 ∨
       Triangle.beta tri ray > 1 - Triangle.gamma tri ray)) ∧
    (¬ (Triangle.tval tri ray < ray.start ∨ ((Triangle.tval tri ray : EReal) > ray.rayEnd) ∨
        Triangle.gamma tri ray < 0 ∨ Triangle.gamma tri ray > 1 ∨
        Triangle.beta tri ray < 0 ∨
        Triangle.beta tri ray > 1 - Triangle.gamma tri ray) →
      tri.intersect ray =
        ⟨(Triangle.tval tri ray : EReal),
          ray.origin + Triangle.tval tri ray • ray.direction,
          Triangle.faceNormal tri, tri.material⟩) := by
  refine ⟨?_, ?_, ?_⟩
  · ext
    · show ray.origin.x + Triangle.tval tri ray * ray.direction.x = _
      unfold Triangle.M Triangle.a Triangle.b Triangle.c Triangle.d Triangle.e
        Triangle.f Triangle.g Triangle.h Triangle.i at hM
      unfold Triangle.tval Triangle.beta Triangle.gamma Triangle.tNum Triangle.betaNum
        Triangle.gammaNum Triangle.M Triangle.a Triangle.b Triangle.c Triangle.d
        Triangle.e Triangle.f Triangle.g Triangle.h Triangle.i Triangle.j Triangle.k
        Triangle.l
      simp only [Vec3.add_x, Vec3.sub_x, Vec3.smul_x]
      field_simp
      ring
    · show ray.origin.y + Triangle.tval tri ray * ray.direction.y = _
      unfold Triangle.M Triangle.a Triangle.b Triangle.c Triangle.d Triangle.e
        Triangle.f Triangle.g Triangle.h Triangle.i at hM
      unfold Triangle.tval Triangle.beta Triangle.gamma Triangle.tNum Triangle.betaNum
        Triangle.gammaNum Triangle.M Triangle.a Triangle.b Triangle.c Triangle.d
        Triangle.e Triangle.f Triangle.g Triangle.h Triangle.i Triangle.j Triangle.k
        Triangle.l
      simp only [Vec3.add_y, Vec3.sub_y, Vec3.smul_y]
      field_simp
      ring
    · show ray.origin.z + Triangle.tval tri ray * ray.direction.z = _
      unfold Triangle.M Triangle.a Triangle.b Triangle.c Triangle.d Triangle.e
        Triangle.f Triangle.g Triangle.h Triangle.i at hM
      unfold Triangle.tval Triangle.beta Triangle.gamma Triangle.tNum Triangle.betaNum
        Triangle.gammaNum Triangle.M Triangle.a Triangle.b Triangle.c Triangle.d
        Triangle.e Triangle.f Triangle.g Triangle.h Triangle.i Triangle.j Triangle.k
        Triangle.l
      simp only [Vec3.add_z, Vec3.sub_z, Vec3.smul_z]
      field_simp
      ring
  · have hflat :
        (Triangle.tval tri ray < ray.start ∨ ((Triangle.tval tri ray : EReal) > ray.rayEnd) ∨
         Triangle.gamma tri ray < 0 ∨ Triangle.gamma tri ray > 1 ∨
         Triangle.beta tri ray < 0 ∨
         Triangle.beta tri ray > 1 - Triangle.gamma tri ray) ↔
        ((Triangle.tval tri ray < ray.start ∨ ((Triangle.tval tri ray : EReal) > ray.rayEnd)) ∨
         (Triangle.gamma tri ray < 0 ∨ Triangle.gamma tri ray > 1) ∨
         (Triangle.beta tri ray < 0 ∨
          Triangle.beta tri ray > 1 - Triangle.gamma tri ray)) := by
      tauto
    rw [hflat]
    unfold Triangle.intersect
    by_cases hc1 : Triangle.tval tri ray < ray.start ∨ ((Triangle.tval tri ray : EReal) > ray.rayEnd)
    · rw [if_pos hc1]
      exact iff_of_true rfl (Or.inl hc1)
    · rw [if_neg hc1]
      by_cases hc2 : Triangle.gamma tri ray < 0 ∨ Triangle.gamma tri ray > 1
      · rw [if_pos hc2]
        exact iff_of_true rfl (Or.inr (Or.inl hc2))
      · rw [if_neg hc2]
        by_cases hc3 : Triangle.beta tri ray < 0 ∨
            Triangle.beta tri ray > 1 - Triangle.gamma tri ray
        · rw [if_pos hc3]
          exact iff_of_true rfl (Or.inr (Or.inr hc3))
        · rw [if_neg hc3]
          refine iff_of_false ?_ (by tauto)
          intro heq
          exact EReal.coe_ne_top _ (congrArg Hit.t heq)
  · intro hcond
    push_neg at hcond
    obtain ⟨h1, h2, h3, h4, h5, h6⟩ := hcond
    unfold Triangle.intersect
    rw [if_neg (by push_neg; exact ⟨h1, h2⟩), if_neg (by push_neg; exact ⟨h3, h4⟩),
      if_neg (by push_neg; exact ⟨h5, h6⟩)]

/-- A concrete triangle in the plane `z = 5`, crossed by `wRay`. -/
def wTri : Triangle := ⟨⟨-1, -1, 5⟩, ⟨1, -1, 5⟩, ⟨0, 1, 5⟩, wMat⟩

/-- Witness for `triangle_intersect_correct`: for `wTri` and `wRay` the
determinant is `4 ≠ 0` and the Cramer solution satisfies the barycentric
point equation. -/
theorem triangle_intersect_correct_witness :
    wRay.origin + Triangle.tval wTri wRay • wRay.direction =
      wTri.v0 + Triangle.beta wTri wRay • (wTri.v1 - wTri.v0)
        + Triangle.gamma wTri wRay • (wTri.v2 - wTri.v0) :=
  (triangle_intersect_correct wTri wRay
    (by norm_num [Triangle.M, Triangle.a, Triangle.b, Triangle.c, Triangle.d,
      Triangle.e, Triangle.f, Triangle.g, Triangle.h, Triangle.i, wTri, wRay])).1

/-- C10: every division of `Triangle.intersect` is by the determinant
`M`; the checked embedding `Triangle.intersectE` reaches its
division-by-zero error branch exactly when `M = 0` (so under `M ≠ 0` the
error is unreachable and the result is `Except.ok` of the total
embedding), while no runtime check in `Triangle.intersect` itself
excludes `M = 0`. -/
theorem triangle_intersectE_characterization (tri : Triangle) (ray : Ray) :
    Triangle.intersectE tri ray =
      if Triangle.M tri ray = 0 then Except.error "division by zero"
      else Except.ok (tri.intersect ray) := by
  by_cases hM : Triangle.M tri ray = 0
  · rw [if_pos hM]
    unfold Triangle.intersectE Triangle.divM
    rw [if_pos hM]
  · rw [if_neg hM]
    unfold Triangle.intersectE Triangle.divM Triangle.intersect Triangle.tval
      Triangle.gamma Triangle.beta
    simp only [if_neg hM]
    split_ifs <;> rfl

/-! Spec-side formulas of section 4.4 of the specification (camera ray
generation), written from the specification text. -/

/-- Spec formula `proj_dist = norm(target - eye)`. -/
noncomputable def camProjDist (c : Camera) : ℝ := norm (c.target - c.eye)

/-- Spec formula `height = 2 * proj_dist * tan(vfov/2)`. -/
noncomputable def camHeight (c : Camera) : ℝ :=
  2 * camProjDist c * Real.tan (Camera.vfov c / 2)

/-- Spec formula `width = aspect * height`. -/
noncomputable def camWidth (c : Camera) : ℝ := c.aspect * camHeight c

/-- Spec formula `u_off = i*width - width/2`. -/
noncomputable def camUOff (c : Camera) (iPt : ℝ) : ℝ :=
  iPt * camWidth c - camWidth c / 2

/-- Spec formula `v_off = j*height - height/2`. -/
noncomputable def camVOff (c : Camera) (jPt : ℝ) : ℝ :=
  jPt * camHeight c - camHeight c / 2

/-- The ray described by the claim: origin `eye`, unnormalized direction
`-proj_dist*w + u_off*u + v_off*v`, interval `start = 0`, `end = +∞`. -/
noncomputable def camSpecRay (c : Camera) (iPt jPt : ℝ) : Ray :=
  ⟨c.eye,
    (-(camProjDist c)) • Camera.w c + camUOff c iPt • Camera.u c + camVOff c jPt • Camera.v c,
    0, ⊤⟩

/-- C8: for every camera whose `up` is not parallel to `eye - target`
and every image point, `Camera.generate_ray` returns exactly the ray of
the specification formulas (origin `eye`, direction
`-proj_dist*w + u_off*u + v_off*v`, interval `[0, +∞)`), with the axes
`w = normalize(eye-target)`, `u = normalize(cross(up, w))`,
`v = cross(w, u)`. -/
theorem camera_generate_ray_correct (c : Camera) (iPt jPt : ℝ)
    (hup : cross c.up (c.eye - c.target) ≠ 0) :
    c.generateRay iPt jPt = camSpecRay c iPt jPt ∧
    Camera.w c = normalize (c.eye - c.target) ∧
    Camera.u c = normalize (cross c.up (Camera.w c)) ∧
    Camera.v c = cross (Camera.w c) (Camera.u c) := by
  refine ⟨?_, rfl, rfl, rfl⟩
  unfold Camera.generateRay camSpecRay camUOff camVOff camWidth camHeight camProjDist
  ext <;> simp only [Vec3.add_x, Vec3.add_y, Vec3.add_z, Vec3.smul_x, Vec3.smul_y,
    Vec3.smul_z] <;> first
  | rfl
  | ring

/-- A concrete camera at the origin looking down the negative z axis. -/
def wCam : Camera := ⟨⟨0, 0, 0⟩, ⟨0, 0, -1⟩, ⟨0, 1, 0⟩, 90, 1⟩

/-- Witness for `camera_generate_ray_correct` at the concrete camera
`wCam` and the image center `(1/2, 1/2)`. -/
theorem camera_generate_ray_correct_witness :
    wCam.generateRay (1 / 2) (1 / 2) = camSpecRay wCam (1 / 2) (1 / 2) :=
  (camera_generate_ray_correct wCam (1 / 2) (1 / 2)
    (by
      intro hcon
      have := congrArg Vec3.x hcon
      norm_num [wCam, cross] at this)).1

/-! Recursion bound of `shade`. -/

theorem shadeFuel_eq_shade (scene : Scene) (lights : List Light) :
    ∀ (fuel : ℕ) (ray : Ray) (hit : Hit) (depth : ℕ),
      MAX_DEPTH - depth ≤ fuel →
      shadeFuel scene lights fuel ray hit depth = shade scene lights ray hit depth := by
  intro fuel
  induction fuel with
  | zero =>
    intro ray hit depth hle
    have hnd : ¬ depth < MAX_DEPTH := by omega
    rw [shadeFuel, shade]
    simp only [dif_neg hnd, if_neg hnd]
  | succ fuel ih =>
    intro ray hit depth hle
    rw [shadeFuel, shade]
    by_cases hlt : hit.t < ⊤
    · simp only [if_pos hlt]
      by_cases hd : depth < MAX_DEPTH
      · simp only [dif_pos hd, if_pos hd]
        congr 1
        by_cases hm : scene.intersect (mirrorRay ray hit) ≠ noHit
        · simp only [if_pos hm]
          rw [ih (mirrorRay ray hit) (scene.intersect (mirrorRay ray hit)) (depth + 1)
            (by omega)]
        · simp only [if_neg hm]
      · simp only [dif_neg hd, if_neg hd]
    · simp only [if_neg hlt]

/-- C6: `shade` terminates with recursion depth bounded by
`MAX_DEPTH = 4`: the fuel-indexed `shadeFuel` (whose reflection step
consumes one unit of fuel and contributes zero when the fuel is
exhausted) already equals `shade` with `MAX_DEPTH - depth` fuel, and
from `depth = MAX_DEPTH` on, the reflection term is zero and `shade`
reduces to the direct-lighting sum alone — no further rays are cast. -/
theorem shade_terminates_depth_bound :
    MAX_DEPTH = 4 ∧
    (∀ (scene : Scene) (lights : List Light) (ray : Ray) (hit : Hit) (depth : ℕ),
      shadeFuel scene lights (MAX_DEPTH - depth) ray hit depth =
        shade scene lights ray hit depth) ∧
    (∀ (scene : Scene) (lights : List Light) (ray : Ray) (hit : Hit) (depth : ℕ),
      MAX_DEPTH ≤ depth → hit.t < ⊤ →
      shade scene lights ray hit depth = sumIllum lights ray hit scene 0) := by
  refine ⟨rfl, ?_, ?_⟩
  · intro scene lights ray hit depth
    exact shadeFuel_eq_shade scene lights (MAX_DEPTH - depth) ray hit depth (le_refl _)
  · intro scene lights ray hit depth hge hlt
    rw [shade]
    simp only [if_pos hlt, dif_neg (by omega : ¬ depth < MAX_DEPTH)]

/-- A concrete empty scene. -/
def wScene : Scene := ⟨[], ⟨(0.2 : ℝ), 0.3, 0.5⟩⟩

/-- A concrete hit at the origin with normal `(0,0,1)` and `t = 0`. -/
def wHit0 : Hit := ⟨((0 : ℝ) : EReal), ⟨0, 0, 0⟩, ⟨0, 0, 1⟩, wMat⟩

theorem wHit0_t_lt_top : wHit0.t < ⊤ := by
  show ((0 : ℝ) : EReal) < ⊤
  exact EReal.coe_lt_top 0

/-- Witness for `shade_terminates_depth_bound`: in the empty scene with
no lights, at `depth = MAX_DEPTH` the shade of a finite hit is the bare
(empty) direct-lighting sum. -/
theorem shade_terminates_depth_bound_witness :
    shade wScene [] wRay wHit0 MAX_DEPTH = sumIllum [] wRay wHit0 wScene 0 :=
  shade_terminates_depth_bound.2.2 wScene [] wRay wHit0 MAX_DEPTH (le_refl _) wHit0_t_lt_top

/-- C7: a `hit.t = +∞` (the no-hit sentinel) makes `shade` return the
scene's background color unchanged, as ordinary control flow; and a
reflection ray that misses all geometry contributes
`material.mirror * background_color` instead of recursing. -/
theorem shade_background_paths :
    (∀ (scene : Scene) (lights : List Light) (ray : Ray) (hit : Hit) (depth : ℕ),
      hit.t = ⊤ → shade scene lights ray hit depth = scene.bg_color) ∧
    (∀ (scene : Scene) (lights : List Light) (ray : Ray) (hit : Hit) (depth : ℕ),
      hit.t < ⊤ → depth < MAX_DEPTH →
      scene.intersect (mirrorRay ray hit) = noHit →
      shade scene lights ray hit depth =
        sumIllum lights ray hit scene (hit.material.k_m * scene.bg_color)) := by
  constructor
  · intro scene lights ray hit depth h
    rw [shade]
    simp only [h, lt_irrefl, if_false]
  · intro scene lights ray hit depth hlt hd hm
    rw [shade]
    simp only [if_pos hlt, dif_pos hd, hm, ne_eq, not_true_eq_false, if_false]

/-- Witness for `shade_background_paths`: in the empty scene, shading
the no-hit sentinel returns the background color, and a finite hit whose
mirror ray misses everything gets the mirror-scaled background term. -/
theorem shade_background_paths_witness :
    shade wScene [] wRay noHit 0 = wScene.bg_color ∧
    shade wScene [] wRay wHit0 0 =
      sumIllum [] wRay wHit0 wScene (wHit0.material.k_m * wScene.bg_color) :=
  ⟨shade_background_paths.1 wScene [] wRay noHit 0 rfl,
   shade_background_paths.2 wScene [] wRay wHit0 0 wHit0_t_lt_top
     (by norm_num [MAX_DEPTH]) rfl⟩

/-! Claim-side Blinn-Phong formulas for the point light, written from
the specification text of section 4.5. -/

/-- The Blinn-Phong value the claim asserts for an unoccluded point-light
query: `(k_d * max(0, dot(N,L)) / dist^2 + k_s * max(0, dot(N,H))^p / dist^2)
* intensity` with `L` the unit vector to the light, `H` the unit
half-vector between the normalized negated ray direction and `L`, and
`dist` the distance to the light. -/
noncomputable def specBlinnPhong (light : PointLight) (ray : Ray) (hit : Hit) : Vec3 :=
  let N := hit.normal
  let L := normalize (light.position - hit.point)
  let V := -(normalize ray.direction)
  let H := normalize (V + L)
  let dist := norm (hit.point - light.position)
  ((max 0 (dot N L) / dist ^ 2) • hit.material.k_d
      + (Real.rpow (max 0 (dot N H)) hit.material.p / dist ^ 2) • hit.material.k_s)
    * light.intensity

/-- The value `PointLight.illuminate` actually computes when both of its
internal occlusion checks pass: the specular term is additionally scaled
by `max(0, dot(N,L))` and `dot(N,H)` is not clamped at zero before the
exponentiation. -/
noncomputable def amendedBlinnPhong (light : PointLight) (ray : Ray) (hit : Hit) : Vec3 :=
  let N := hit.normal
  let L := normalize (light.position - hit.point)
  let V := -(normalize ray.direction)
  let H := normalize (V + L)
  let dist := norm (hit.point - light.position)
  ((max 0 (dot N L) / dist ^ 2) • hit.material.k_d
      + (Real.rpow (dot N H) hit.material.p * max 0 (dot N L) / dist ^ 2) •
          hit.material.k_s)
    * light.intensity

theorem neg_one_smul_vec (a : Vec3) : ((-1 : ℝ) • a) = -a := by
  ext <;> simp

/-- C1 (amended): whenever both occlusion checks of
`PointLight.illuminate` pass (the shadow ray reports no hit with
`t ≤ 1`, and the second, unbounded ray toward the light reports no hit
at all), the returned value is `amendedBlinnPhong` — the Blinn-Phong
variant in which the specular term carries the diffuse clamp
`max(0, dot(N,L))` and `dot(N,H)` is left unclamped. -/
theorem pointlight_illuminate_amended (light : PointLight) (ray : Ray) (hit : Hit)
    (scene : Scene)
    (h1 : (Scene.intersect scene (PointLight.shadowRay light hit)).t > 1)
    (h2 : (Scene.intersect scene (PointLight.shadeRay light hit)).t = ⊤) :
    PointLight.illuminate light ray hit scene = amendedBlinnPhong light ray hit := by
  unfold PointLight.illuminate
  rw [if_pos h1, if_pos h2]
  unfold amendedBlinnPhong
  rw [show ((-1 : ℝ) • normalize ray.direction) = -(normalize ray.direction) from
    neg_one_smul_vec _]
  show _ = _
  unfold Vec3.normalize
  ext <;> simp only [Vec3.add_x, Vec3.add_y, Vec3.add_z, Vec3.smul_x, Vec3.smul_y,
    Vec3.smul_z, Vec3.mul_x, Vec3.mul_y, Vec3.mul_z] <;> ring

/-! Concrete point-light configuration refuting the claimed Blinn-Phong
formula: grazing light (`dot(N,L) = 0`) with `dot(N,H) > 0`. -/

/-- A purely specular material with exponent `2`. -/
def cMat1 : Material := ⟨⟨0, 0, 0⟩, ⟨1, 1, 1⟩, 2, ⟨0, 0, 0⟩, ⟨0, 0, 0⟩⟩

/-- A viewing ray straight down the z axis. -/
def cRay1 : Ray := ⟨⟨0, 0, 1⟩, ⟨0, 0, -1⟩, 0, ⊤⟩

/-- A hit at the origin with normal `(0,0,1)`. -/
def cHit1 : Hit := ⟨((1 : ℝ) : EReal), ⟨0, 0, 0⟩, ⟨0, 0, 1⟩, cMat1⟩

/-- A light on the horizon of the hit point: `dot(N,L) = 0`. -/
def cLight1 : PointLight := ⟨⟨1, 0, 0⟩, ⟨1, 1, 1⟩⟩

theorem one_lt_top_ereal : (1 : EReal) < ⊤ := by
  rw [← EReal.coe_one]
  exact EReal.coe_lt_top 1

theorem c1_L : normalize (cLight1.position - cHit1.point) = ⟨1, 0, 0⟩ := by
  unfold Vec3.normalize Vec3.norm
  ext <;> norm_num [cLight1, cHit1, dot, Real.sqrt_one]

theorem c1_V : -(normalize cRay1.direction) = ⟨0, 0, 1⟩ := by
  unfold Vec3.normalize Vec3.norm
  ext <;> norm_num [cRay1, dot, Real.sqrt_one]

theorem c1_H : normalize ((⟨0, 0, 1⟩ : Vec3) + ⟨1, 0, 0⟩) =
    ⟨1 / Real.sqrt 2, 0, 1 / Real.sqrt 2⟩ := by
  unfold Vec3.normalize Vec3.norm
  ext <;> norm_num [dot]

theorem c1_dist : norm (cHit1.point - cLight1.position) = 1 := by
  unfold Vec3.norm
  norm_num [cHit1, cLight1, dot, Real.sqrt_one]

theorem rpow_inv_sqrt_two_sq : Real.rpow (1 / Real.sqrt 2) 2 = 1 / 2 := by
  show (1 / Real.sqrt 2) ^ (2 : ℝ) = 1 / 2
  rw [Real.rpow_two]
  have h2 : Real.sqrt 2 ^ 2 = 2 := Real.sq_sqrt (by norm_num)
  have hne : Real.sqrt 2 ≠ 0 := by positivity
  field_simp

theorem c1_illuminate_zero : PointLight.illuminate cLight1 cRay1 cHit1 wScene = 0 := by
  have h1 : (Scene.intersect wScene (PointLight.shadowRay cLight1 cHit1)).t > 1 := by
    have : Scene.intersect wScene (PointLight.shadowRay cLight1 cHit1) = noHit := rfl
    rw [this, noHit_t]
    exact one_lt_top_ereal
  have h2 : (Scene.intersect wScene (PointLight.shadeRay cLight1 cHit1)).t = ⊤ := rfl
  simp only [PointLight.illuminate]
  rw [if_pos h1, if_pos h2, c1_L]
  ext <;> norm_num [cHit1, cMat1, cLight1, dot]

theorem c1_spec_value : specBlinnPhong cLight1 cRay1 cHit1 =
    ⟨1 / 2, 1 / 2, 1 / 2⟩ := by
  simp only [specBlinnPhong]
  rw [c1_L, c1_V, show (⟨0, 0, 1⟩ : Vec3) + ⟨1, 0, 0⟩ = ⟨1, 0, 1⟩ from by ext <;> norm_num]
  rw [show normalize (⟨1, 0, 1⟩ : Vec3) = ⟨1 / Real.sqrt 2, 0, 1 / Real.sqrt 2⟩ from by
    unfold Vec3.normalize Vec3.norm; ext <;> norm_num [dot]]
  rw [c1_dist]
  rw [show dot cHit1.normal ⟨1 / Real.sqrt 2, 0, 1 / Real.sqrt 2⟩ = 1 / Real.sqrt 2 from by
    norm_num [cHit1, dot]]
  rw [show max 0 (1 / Real.sqrt 2) = 1 / Real.sqrt 2 from max_eq_right (by positivity)]
  rw [show cHit1.material.p = (2 : ℝ) from rfl, rpow_inv_sqrt_two_sq]
  ext <;> norm_num [cHit1, cMat1, cLight1, dot]

/-- C1 counterexample: for this unoccluded query (the shadow ray reports
no intersection at all, so none with `t ≤ 1`), the code returns the zero
vector while the claimed Blinn-Phong formula evaluates to
`(1/2, 1/2, 1/2)`: the code multiplies the specular term by
`max(0, dot(N,L))`, which is zero here, whereas the claimed formula
clamps only `dot(N,H)` in the specular term. -/
theorem pointlight_blinn_phong_counterexample :
    (Scene.intersect wScene (PointLight.shadowRay cLight1 cHit1)).t > 1 ∧
    PointLight.illuminate cLight1 cRay1 cHit1 wScene = 0 ∧
    specBlinnPhong cLight1 cRay1 cHit1 = ⟨1 / 2, 1 / 2, 1 / 2⟩ ∧
    ¬ (PointLight.illuminate cLight1 cRay1 cHit1 wScene =
        specBlinnPhong cLight1 cRay1 cHit1) := by
  refine ⟨?_, c1_illuminate_zero, c1_spec_value, ?_⟩
  · have : Scene.intersect wScene (PointLight.shadowRay cLight1 cHit1) = noHit := rfl
    rw [this, noHit_t]
    exact one_lt_top_ereal
  · rw [c1_illuminate_zero, c1_spec_value]
    intro hcon
    have := congrArg Vec3.x hcon
    norm_num at this

/-- Witness for `pointlight_illuminate_amended`: in the empty scene both
occlusion checks pass, and `illuminate` equals the amended formula. -/
theorem pointlight_illuminate_amended_witness :
    PointLight.illuminate cLight1 cRay1 cHit1 wScene =
      amendedBlinnPhong cLight1 cRay1 cHit1 :=
  pointlight_illuminate_amended cLight1 cRay1 cHit1 wScene
    (by
      have : Scene.intersect wScene (PointLight.shadowRay cLight1 cHit1) = noHit := rfl
      rw [this, noHit_t]
      exact one_lt_top_ereal)
    rfl

/-! Concrete configuration refuting the claimed equivalence of the two
occlusion checks: a sphere strictly beyond the light forces a zero
contribution although the shadow ray reports no occluder with t ≤ 1. -/

/-- A light one unit above the hit point. -/
def cLight2 : PointLight := ⟨⟨0, 0, 1⟩, ⟨1, 1, 1⟩⟩

/-- A hit at the origin with normal `(0,0,1)` facing the light. -/
def cHit2 : Hit := ⟨((1 : ℝ) : EReal), ⟨0, 0, 0⟩, ⟨0, 0, 1⟩, wMat⟩

/-- A small sphere at `z = 3`, strictly beyond the light at `z = 1`. -/
noncomputable def cSph2 : Sphere := ⟨⟨0, 0, 3⟩, 1 / 2, wMat⟩

/-- The scene containing only the beyond-the-light sphere. -/
noncomputable def cScene2 : Scene := ⟨[Surface.sphere cSph2], ⟨0, 0, 0⟩⟩

/-- A viewing ray toward the hit point. -/
def cRay2 : Ray := ⟨⟨0, 0, 1⟩, ⟨0, 0, -1⟩, 0, ⊤⟩

/-- The literal value of the shadow ray of this configuration. -/
def c2SRay : Ray := ⟨⟨0, 0, PointLight.eps⟩, ⟨0, 0, 1⟩, PointLight.eps, (1 : EReal)⟩

/-- The literal value of the second (`shade_ray`) ray of this
configuration: normalized direction, interval `[eps, +∞)`. -/
def c2DRay : Ray := ⟨⟨0, 0, 0⟩, ⟨0, 0, 1⟩, PointLight.eps, ⊤⟩

theorem c2_shadowRay_eq : PointLight.shadowRay cLight2 cHit2 = c2SRay := by
  unfold PointLight.shadowRay c2SRay
  ext <;> norm_num [cLight2, cHit2]

theorem c2_shadeRay_eq : PointLight.shadeRay cLight2 cHit2 = c2DRay := by
  unfold PointLight.shadeRay c2DRay Vec3.normalize Vec3.norm
  ext <;> norm_num [cLight2, cHit2, dot, Real.sqrt_one]

theorem c2s_discr : Sphere.discr cSph2 c2SRay = 1 := by
  norm_num [Sphere.discr, Sphere.A, Sphere.B, Sphere.Cq, cSph2, c2SRay,
    PointLight.eps, dot]

theorem c2s_t0 : Sphere.t0 cSph2 c2SRay = 2.499999 := by
  unfold Sphere.t0
  rw [c2s_discr, Real.sqrt_one]
  norm_num [Sphere.A, Sphere.B, cSph2, c2SRay, PointLight.eps, dot]

theorem c2s_t1 : Sphere.t1 cSph2 c2SRay = 3.499999 := by
  unfold Sphere.t1
  rw [c2s_discr, Real.sqrt_one]
  norm_num [Sphere.A, Sphere.B, cSph2, c2SRay, PointLight.eps, dot]

theorem c2_shadow_eval : Sphere.intersect cSph2 c2SRay = noHit := by
  unfold Sphere.intersect
  rw [if_neg (by rw [c2s_discr]; norm_num)]
  have hend : c2SRay.rayEnd = ((1 : ℝ) : EReal) := by
    show (1 : EReal) = _
    rw [EReal.coe_one]
  rw [if_neg, if_neg]
  · rintro ⟨-, h2⟩
    rw [c2s_t1, hend, EReal.coe_le_coe_iff] at h2
    norm_num at h2
  · rintro ⟨-, h2, -⟩
    rw [c2s_t0, hend, EReal.coe_le_coe_iff] at h2
    norm_num at h2

theorem c2_scene_shadow : Scene.intersect cScene2 c2SRay = noHit := by
  show List.foldl (sceneStep c2SRay) noHit [Surface.sphere cSph2] = noHit
  simp only [List.foldl_cons, List.foldl_nil]
  unfold sceneStep
  rw [show Surface.intersect (Surface.sphere cSph2) c2SRay = noHit from c2_shadow_eval]
  simp

theorem c2d_discr : Sphere.discr cSph2 c2DRay = 1 := by
  norm_num [Sphere.discr, Sphere.A, Sphere.B, Sphere.Cq, cSph2, c2DRay, dot]

theorem c2d_t0 : Sphere.t0 cSph2 c2DRay = 5 / 2 := by
  unfold Sphere.t0
  rw [c2d_discr, Real.sqrt_one]
  norm_num [Sphere.A, Sphere.B, cSph2, c2DRay, dot]

theorem c2d_t1 : Sphere.t1 cSph2 c2DRay = 7 / 2 := by
  unfold Sphere.t1
  rw [c2d_discr, Real.sqrt_one]
  norm_num [Sphere.A, Sphere.B, cSph2, c2DRay, dot]

theorem c2_shade_eval :
    Sphere.intersect cSph2 c2DRay = Sphere.mkHit cSph2 c2DRay (5 / 2) := by
  unfold Sphere.intersect
  rw [if_neg (by rw [c2d_discr]; norm_num)]
  rw [if_pos (by
    rw [c2d_t0, c2d_t1]
    exact ⟨by norm_num [c2DRay, PointLight.eps], le_top, by norm_num⟩)]
  rw [c2d_t0]

theorem c2_scene_shade_t :
    (Scene.intersect cScene2 c2DRay).t = ((5 / 2 : ℝ) : EReal) := by
  show (List.foldl (sceneStep c2DRay) noHit [Surface.sphere cSph2]).t = _
  simp only [List.foldl_cons, List.foldl_nil]
  unfold sceneStep
  rw [show Surface.intersect (Surface.sphere cSph2) c2DRay =
    Sphere.mkHit cSph2 c2DRay (5 / 2) from c2_shade_eval]
  rw [if_pos (by rw [noHit_t]; exact EReal.coe_lt_top _)]
  rfl

/-- C2 counterexample: in `cScene2` the only surface lies strictly
beyond the light, so the shadow ray (interval `(eps, 1]`) reports no
intersection — no occluder has `t ≤ 1` — yet `PointLight.illuminate`
returns the zero vector, because its second internal check casts an
unbounded ray (interval `[eps, +∞)`) that hits the sphere at `t = 5/2`:
the two checks do not have identical semantics, and geometry strictly
beyond the light does force a zero contribution. -/
theorem pointlight_occlusion_counterexample :
    Sphere.intersect cSph2 (PointLight.shadowRay cLight2 cHit2) = noHit ∧
    (Scene.intersect cScene2 (PointLight.shadowRay cLight2 cHit2)).t > 1 ∧
    PointLight.illuminate cLight2 cRay2 cHit2 cScene2 = 0 := by
  have hsh : Scene.intersect cScene2 (PointLight.shadowRay cLight2 cHit2) = noHit := by
    rw [c2_shadowRay_eq]
    exact c2_scene_shadow
  refine ⟨by rw [c2_shadowRay_eq]; exact c2_shadow_eval, ?_, ?_⟩
  · rw [hsh, noHit_t]
    exact one_lt_top_ereal
  · simp only [PointLight.illuminate]
    rw [if_pos (by rw [hsh, noHit_t]; exact one_lt_top_ereal)]
    rw [if_neg (by
      rw [c2_shadeRay_eq, c2_scene_shade_t]
      exact EReal.coe_ne_top _)]

/-- C2 (amended): `PointLight.illuminate` returns the zero vector
whenever the shadow ray reports an intersection with `t ≤ 1` (an
occluder between point and light) or the second, unbounded check ray
toward the light hits any geometry at all — including geometry strictly
beyond the light; the two checks do not have identical semantics. -/
theorem pointlight_illuminate_zero_amended (light : PointLight) (ray : Ray) (hit : Hit)
    (scene : Scene)
    (h : (Scene.intersect scene (PointLight.shadowRay light hit)).t ≤ 1 ∨
         (Scene.intersect scene (PointLight.shadeRay light hit)).t ≠ ⊤) :
    PointLight.illuminate light ray hit scene = 0 := by
  unfold PointLight.illuminate
  rcases h with h | h
  · rw [if_neg (not_lt.mpr h)]
  · by_cases h1 : (Scene.intersect scene (PointLight.shadowRay light hit)).t > 1
    · rw [if_pos h1, if_neg h]
    · rw [if_neg h1]

/-- Witness for `pointlight_illuminate_zero_amended` at the concrete
beyond-the-light configuration (second disjunct: the unbounded check ray
hits the sphere at `t = 5/2`). -/
theorem pointlight_illuminate_zero_amended_witness :
    PointLight.illuminate cLight2 cRay2 cHit2 cScene2 = 0 :=
  pointlight_illuminate_zero_amended cLight2 cRay2 cHit2 cScene2
    (Or.inr (by
      rw [c2_shadeRay_eq, c2_scene_shade_t]
      exact EReal.coe_ne_top _))
